import Mathlib

/-!
Verification development for the `purosoftawareleads` enrichment worker
(`src/enrichment-worker/`): a shallow embedding in Lean 4 of the contact
scraper (`scraper.py`), the normalizer and confidence scorer
(`normalizer.py`), the search-result classifier (`brave_search.py`) and the
job coordinator loop (`main.py`), together with theorems settling the
specification's claims about them.

Modelling conventions:
* Python strings are Lean `String`s; the few Python string primitives the
  code uses (`replace`, `strip`, `lower`, `split`, substring containment)
  are re-implemented on `List Char` with structural recursion so that every
  definition is executable and decidable.
* Python `set` accumulation is determinized to first-insertion order
  (`setOfList`), matching CPython's behaviour up to the unspecified
  iteration order of hash sets.
* External collaborators (HTTP fetches, the `phonenumbers` and
  `email_validator` libraries, `urlparse`-based hostname extraction, the
  database client) are abstracted as explicit parameters / outcome values;
  the control flow around them is translated from the source.
* Python floats are modelled as `ℚ`; for the constants used by
  `compute_confidence` (0.5/0.3/0.1 and their sums clamped at 1.0) the
  IEEE-double results coincide with the rational ones.
-/

namespace Purosoft

/-- Substring search: index of the first occurrence of `pat` in `s`,
    or `none`.  (Counterpart of Python's `str.find` ≥ 0 test.) -/
def findSub (pat : List Char) : List Char → Option Nat
  | [] => if pat = [] then some 0 else none
  | c :: rest =>
    if pat.isPrefixOf (c :: rest) then some 0
    else (findSub pat rest).map (· + 1)

/-- Python's `pat in s` substring test. -/
def strContains (s pat : String) : Bool :=
  (findSub pat.toList s.toList).isSome

/-- Fuel-driven worker for `pyReplace`; fuel bounded by the length of the
    subject string suffices because each step consumes at least one
    character when `old` is non-empty. -/
def replaceFuel (old new : List Char) : Nat → List Char → List Char
  | _, [] => []
  | 0, s => s
  | fuel + 1, c :: rest =>
    if old ≠ [] ∧ old.isPrefixOf (c :: rest) then
      new ++ replaceFuel old new fuel ((c :: rest).drop old.length)
    else
      c :: replaceFuel old new fuel rest

/-- Python's `s.replace(old, new)` (all non-overlapping occurrences, left
    to right), for non-empty `old` — the only way the source uses it. -/
def pyReplace (s old new : String) : String :=
  String.mk (replaceFuel old.toList new.toList s.toList.length s.toList)

/-- Python's `s.strip()`: remove leading and trailing whitespace. -/
def pyStrip (s : String) : String :=
  String.mk (((s.toList.dropWhile Char.isWhitespace).reverse.dropWhile
    Char.isWhitespace).reverse)

/-- Python's `s.lower()` (ASCII-faithful). -/
def pyLower (s : String) : String :=
  String.mk (s.toList.map Char.toLower)

/-- `s.split(sep)[0]` for a one-character separator: the part of `s`
    before the first occurrence of `sep` (all of `s` if absent). -/
def beforeFirstChar (sep : Char) (s : String) : String :=
  String.mk (s.toList.takeWhile (fun c => c ≠ sep))

/-- `s.split(sep)[-1]` for a one-character separator: the part of `s`
    after the last occurrence of `sep` (all of `s` if absent). -/
def afterLastChar (sep : Char) (s : String) : String :=
  String.mk ((s.toList.reverse.takeWhile (fun c => c ≠ sep)).reverse)

/-- Deterministic model of Python `set` accumulation: keep the first
    occurrence of each element, in insertion order. -/
def setOfList (l : List String) : List String :=
  l.foldl (fun acc x => if acc.contains x then acc else acc ++ [x]) []

/-! ## scraper.py -/

/-- `JUNK_EMAIL_DOMAINS` from `scraper.py`. -/
def JUNK_EMAIL_DOMAINS : List String :=
  ["example.com", "sentry.io", "wixpress.com", "w3.org",
   "schema.org", "googleapis.com", "googletagmanager.com"]

/-- `_is_junk_email` from `scraper.py`:
    `domain = email.split("@")[-1].lower(); return domain in JUNK_EMAIL_DOMAINS`. -/
def _is_junk_email (email : String) : Bool :=
  JUNK_EMAIL_DOMAINS.contains (pyLower (afterLastChar '@' email))

/-- The artifacts the scraper reads off a fetched, parsed HTML document.
    Regex matching and HTML parsing (BeautifulSoup) are the abstraction
    boundary: each field is the corresponding list of matches / hrefs, in
    document order. -/
structure ParsedPage where
  /-- `EMAIL_REGEX.findall(text)` over the visible text. -/
  textEmailMatches : List String
  /-- `href` attributes of anchors matching `^mailto:` (case-insensitive). -/
  mailtoHrefs : List String
  /-- `href` attributes of anchors matching `^tel:` (case-insensitive). -/
  telHrefs : List String
  /-- `PHONE_REGEX_AR.findall(text)` over the visible text. -/
  textPhoneMatches : List String
  /-- WhatsApp-regex captures found in anchor `href` attributes. -/
  hrefWaMatches : List String
  /-- WhatsApp-regex captures found in the raw page markup. -/
  rawWaMatches : List String
deriving DecidableEq

/-- Outcome of the HTTP fetch inside `scrape_url`: an exception during the
    fetch, or a response with status code, content type and parsed body. -/
inductive FetchResult where
  | fetchError
  | fetched (status : Nat) (contentType : String) (page : ParsedPage)
deriving DecidableEq

/-- Return value of `scrape_url`: `{emails, phones, whatsapps}`. -/
structure ScrapeResult where
  emails : List String
  phones : List String
  whatsapps : List String
deriving DecidableEq

/-- The all-empty scrape result. -/
def emptyScrape : ScrapeResult := ⟨[], [], []⟩

/-- Processing of one `mailto:` href in `scrape_url`:
    `href.replace("mailto:", "").split("?")[0].strip()`. -/
def mailtoTarget (href : String) : String :=
  pyStrip (beforeFirstChar '?' (pyReplace href "mailto:" ""))

/-- The email-candidate set of `scrape_url`: text regex matches, then the
    `mailto:` targets that contain an `@`, deduplicated. -/
def emailCandidates (page : ParsedPage) : List String :=
  setOfList (page.textEmailMatches ++
    (page.mailtoHrefs.map mailtoTarget).filter (fun e => strContains e "@"))

/-- `re.sub(r"[^\d+]", "", s)`: keep only digits and plus signs. -/
def sanitizePhone (s : String) : String :=
  String.mk (s.toList.filter (fun c => c.isDigit || c == '+'))

/-- Processing of one `tel:` href in `scrape_url`:
    `re.sub(r"[^\d+]", "", href.replace("tel:", "").strip())`. -/
def telTarget (href : String) : String :=
  sanitizePhone (pyStrip (pyReplace href "tel:" ""))

/-- The `tel_phones` set of `scrape_url`: sanitized `tel:` targets that are
    non-empty and at least 8 characters long. -/
def telCandidates (page : ParsedPage) : List String :=
  setOfList ((page.telHrefs.map telTarget).filter
    (fun p => p != "" && decide (8 ≤ p.length)))

/-- The `cleaned_phones` set of `scrape_url`: sanitized text-regex matches
    that are at least 8 characters long. -/
def textPhoneCandidates (page : ParsedPage) : List String :=
  setOfList (((setOfList page.textPhoneMatches).map sanitizePhone).filter
    (fun p => decide (8 ≤ p.length)))

/-- `scrape_url` from `scraper.py`, as a function of the fetch outcome.
    A fetch exception, a non-200 status, or a content type that is neither
    `text/html` nor `application/xhtml` yields the all-empty result;
    otherwise the three contact lists are harvested from the parsed page. -/
def scrape_url (fr : FetchResult) : ScrapeResult :=
  match fr with
  | .fetchError => emptyScrape
  | .fetched status contentType page =>
    if status ≠ 200 then emptyScrape
    else if !(strContains contentType "text/html" ||
              strContains contentType "application/xhtml") then emptyScrape
    else
      { emails := ((emailCandidates page).take 5).filter
          (fun e => !_is_junk_email e)
        phones := (setOfList (telCandidates page ++ textPhoneCandidates page)).take 5
        whatsapps := (setOfList (page.hrefWaMatches ++ page.rawWaMatches)).take 3 }

/-! ## normalizer.py -/

/-- Cleaning step of `normalize_phone`:
    `raw.strip().replace(" ", "").replace("-", "").replace(".", "")`. -/
def cleanPhoneInput (raw : String) : String :=
  pyReplace (pyReplace (pyReplace (pyStrip raw) " " "") "-" "") "." ""

/-- `normalize_phone` from `normalizer.py`.  The `phonenumbers` library is
    abstracted as `parseLib`, mapping the cleaned input either to an
    exception (`.error`) or to the pair (validity flag, E.164 string) the
    source reads off the parsed number. -/
def normalize_phone (parseLib : String → Except Unit (Bool × String))
    (raw : String) : String × Bool :=
  match parseLib (cleanPhoneInput raw) with
  | .ok (isValid, e164) => (e164, isValid)
  | .error _ => (pyStrip raw, false)

/-- `normalize_email` from `normalizer.py`.  The `email_validator` library
    is abstracted as `validateLib`, mapping the stripped input either to an
    exception (`.error`) or to the normalized (canonical-cased) address. -/
def normalize_email (validateLib : String → Except Unit String)
    (raw : String) : String × Bool :=
  match validateLib (pyStrip raw) with
  | .ok normalized => (normalized, true)
  | .error _ => (pyLower (pyStrip raw), false)

/-- The `source and ("mailto:" in source or "tel:" in source)` test of
    `compute_confidence`. -/
def hasLinkBonus (source : String) : Bool :=
  source != "" && (strContains source "mailto:" || strContains source "tel:")

/-- The `source and "wa.me" in source` test of `compute_confidence`. -/
def hasWaBonus (source : String) : Bool :=
  source != "" && strContains source "wa.me"

/-- `compute_confidence` from `normalizer.py`, with floats modelled as `ℚ`:
    base 0.5, +0.3 if valid, +0.1 for an explicit `mailto:`/`tel:` source,
    +0.1 for a `wa.me` source, clamped at 1.0. -/
def compute_confidence (contact_type : String) (is_valid : Bool)
    (source : String) : ℚ :=
  let base : ℚ := 1/2
  let base := if is_valid then base + 3/10 else base
  let base := if hasLinkBonus source then base + 1/10 else base
  let base := if hasWaBonus source then base + 1/10 else base
  min base 1

/-! ## brave_search.py -/

/-- `SKIP_DOMAINS` from `brave_search.py`. -/
def SKIP_DOMAINS : List String :=
  ["yelp.com", "tripadvisor.com", "tripadvisor.com.ar",
   "google.com", "google.com.ar", "maps.google.com",
   "paginasamarillas.com.ar", "paginasamarillas.com",
   "yellowpages.com", "wikipedia.org", "youtube.com",
   "guiaoleo.com.ar", "restorando.com.ar"]

/-- `SOCIAL_DOMAINS` from `brave_search.py`, as an association list in the
    dict's insertion order (Python dicts iterate in insertion order). -/
def SOCIAL_DOMAINS : List (String × String) :=
  [("instagram.com", "instagram"), ("facebook.com", "facebook"),
   ("linkedin.com", "linkedin"), ("twitter.com", "twitter"),
   ("x.com", "twitter")]

/-- The social-domain scan of `search_business`: the first
    `(social_domain, social_type)` entry whose domain is a substring of the
    URL's extracted hostname, if any. -/
def findSocialType (domain : String) : Option String :=
  (SOCIAL_DOMAINS.find? (fun p => strContains domain p.1)).map (·.2)

/-- How `search_business` classifies one URL, given its extracted
    hostname. -/
inductive UrlClass where
  | social (ty : String)
  | skip
  | websiteCandidate
deriving DecidableEq

/-- Classification of one hostname: social scan first (`break`), then the
    deny-list, else a website candidate. -/
def classifyUrl (domain : String) : UrlClass :=
  match findSocialType domain with
  | some ty => .social ty
  | none => if SKIP_DOMAINS.contains domain then .skip else .websiteCandidate

/-- Return value of `search_business`:
    `{website, social_urls (type × url), all_urls}`. -/
structure SearchOutput where
  website : Option String
  social_urls : List (String × String)
  all_urls : List String
deriving DecidableEq

/-- The loop body of `search_business` for one result URL.  Hostname
    extraction (`_extract_domain`, i.e. `urlparse` + `www.`-strip +
    lowercase) is abstracted as the parameter `ed`. -/
def searchStep (ed : String → String) (acc : SearchOutput) (url : String) :
    SearchOutput :=
  if url = "" then acc
  else
    let acc := { acc with all_urls := acc.all_urls ++ [url] }
    match classifyUrl (ed url) with
    | .social ty => { acc with social_urls := acc.social_urls ++ [(ty, url)] }
    | .skip => acc
    | .websiteCandidate =>
      if acc.website = none then { acc with website := some url } else acc

/-- The classification loop of `search_business` (lines 67–93 of
    `brave_search.py`) over the ordered result-URL list of a successful
    search response. -/
def search_business (ed : String → String) (results : List String) :
    SearchOutput :=
  results.foldl (searchStep ed) ⟨none, [], []⟩

/-! ## main.py -/

/-- Terminal job status reached by `process_enrichment`. -/
inductive JobStatus where
  | done
  | failed
deriving DecidableEq

/-- The per-business loop of `process_enrichment`.  `enrich` abstracts
    `enrich_single_business` (`.error` = the business raised; caught and
    logged inside the loop), `dbProgress` abstracts the per-business
    progress update of the jobs table (its exceptions are NOT caught inside
    the loop and escape to the outer handler, carrying the current
    `processed` count as the `.error` payload). -/
def runBatch {β : Type} (enrich : β → Except Unit Unit)
    (dbProgress : Nat → Except Unit Unit) :
    List β → Nat → Except Nat Nat
  | [], processed => .ok processed
  | b :: rest, processed =>
    match enrich b with
    | .ok _ =>
      match dbProgress (processed + 1) with
      | .ok _ => runBatch enrich dbProgress rest (processed + 1)
      | .error _ => .error (processed + 1)
    | .error _ =>
      match dbProgress (processed + 1) with
      | .ok _ => runBatch enrich dbProgress rest (processed + 1)
      | .error _ => .error (processed + 1)

/-- `process_enrichment` from `main.py`: run the per-business loop; if it
    completes, mark the job `done` (`dbDone` abstracts the final jobs-table
    update); any exception escaping the loop or the final update reaches
    the outer handler, which marks the job `failed`.  Returns the terminal
    status together with the final `processed` count. -/
def process_enrichment {β : Type} (enrich : β → Except Unit Unit)
    (dbProgress : Nat → Except Unit Unit) (dbDone : Nat → Except Unit Unit)
    (businesses : List β) : JobStatus × Nat :=
  match runBatch enrich dbProgress businesses 0 with
  | .ok processed =>
    match dbDone processed with
    | .ok _ => (.done, processed)
    | .error _ => (.failed, processed)
  | .error processed => (.failed, processed)

/-! ## Concrete inputs used by counterexamples and witnesses -/

/-- A parsed page harvesting six email candidates, the first with a junk
    domain and the remaining five with a real domain. -/
def pageC1 : ParsedPage :=
  { textEmailMatches := ["a@example.com", "a1@ok.com", "a2@ok.com",
      "a3@ok.com", "a4@ok.com", "a5@ok.com"],
    mailtoHrefs := [], telHrefs := [], textPhoneMatches := [],
    hrefWaMatches := [], rawWaMatches := [] }

/-- A parsed page with two email candidates, one junk. -/
def c1WitnessPage : ParsedPage :=
  { textEmailMatches := ["x@ok.com", "y@example.com"],
    mailtoHrefs := [], telHrefs := [], textPhoneMatches := [],
    hrefWaMatches := [], rawWaMatches := [] }

/-- A parsed page whose only contact is a `tel:` link with seven digits and
    a plus sign — eight characters after sanitization. -/
def pageC6 : ParsedPage :=
  { textEmailMatches := [], mailtoHrefs := [], telHrefs := ["tel:+1234567"],
    textPhoneMatches := [], hrefWaMatches := [], rawWaMatches := [] }

/-- A parsed page whose only contact is a well-formed `tel:` link. -/
def c6WitnessPage : ParsedPage :=
  { textEmailMatches := [], mailtoHrefs := [],
    telHrefs := ["tel:+54 11 4567-8900"],
    textPhoneMatches := [], hrefWaMatches := [], rawWaMatches := [] }

/-- A parsed page with no contacts at all. -/
def emptyParsedPage : ParsedPage :=
  { textEmailMatches := [], mailtoHrefs := [], telHrefs := [],
    textPhoneMatches := [], hrefWaMatches := [], rawWaMatches := [] }

/-- Hostname extraction for the four-URL classification scenario of the
    spec (deny-listed, social, website-A, website-B). -/
def edScenario : String → String := fun u =>
  if u = "https://yelp.com/biz" then "yelp.com"
  else if u = "https://instagram.com/biz" then "instagram.com"
  else if u = "https://site-a.com" then "site-a.com"
  else "site-b.com"

/-- The result order [deny-listed, social, website-A, website-B]. -/
def scenarioUrls : List String :=
  ["https://yelp.com/biz", "https://instagram.com/biz",
   "https://site-a.com", "https://site-b.com"]

/-- Predicate for a retainable website candidate: non-empty URL whose
    hostname classifies as neither social nor deny-listed. -/
def isWebsitePick (ed : String → String) (u : String) : Bool :=
  u != "" && (classifyUrl (ed u) == UrlClass.websiteCandidate)

/-! ## Helper lemmas -/

/-- One step of the classification loop appends a non-empty URL to
    `all_urls` and drops an empty one. -/
theorem searchStep_all_urls (ed : String → String) (acc : SearchOutput) (u : String) :
    (searchStep ed acc u).all_urls =
      if u = "" then acc.all_urls else acc.all_urls ++ [u] := by
  unfold searchStep
  by_cases hu : u = ""
  · simp [hu]
  · simp only [hu, if_neg, ite_false]
    rcases h : classifyUrl (ed u) with ty | _ | _ <;> simp [h]
    split <;> simp

/-- One step of the classification loop sets `website` exactly when the
    URL is non-empty, no website is retained yet, and the hostname
    classifies as a website candidate. -/
theorem searchStep_website (ed : String → String) (acc : SearchOutput) (u : String) :
    (searchStep ed acc u).website =
      if u ≠ "" ∧ acc.website = none ∧ classifyUrl (ed u) = .websiteCandidate
      then some u else acc.website := by
  unfold searchStep
  by_cases hu : u = ""
  · simp [hu]
  · rcases h : classifyUrl (ed u) with ty | _ | _ <;> simp [hu, h]
    by_cases hw : acc.website = none <;> simp [hw]

/-- One step of the classification loop appends to `social_urls` exactly
    for non-empty URLs whose hostname classifies as social. -/
theorem searchStep_social (ed : String → String) (acc : SearchOutput) (u : String) :
    (searchStep ed acc u).social_urls =
      match (if u = "" then none else some (classifyUrl (ed u))) with
      | some (.social ty) => acc.social_urls ++ [(ty, u)]
      | _ => acc.social_urls := by
  unfold searchStep
  by_cases hu : u = ""
  · simp [hu]
  · rcases h : classifyUrl (ed u) with ty | _ | _ <;> simp [hu, h]
    split <;> simp

/-- The classification loop accumulates every non-empty result URL into
    `all_urls`, in result order. -/
theorem foldl_all_urls (ed : String → String) (rs : List String) :
    ∀ acc : SearchOutput, (rs.foldl (searchStep ed) acc).all_urls
      = acc.all_urls ++ rs.filter (fun u => u != "") := by
  induction rs with
  | nil => intro acc; simp
  | cons u rest ih =>
    intro acc
    by_cases hu : u = ""
    · simp only [List.foldl_cons, ih, hu]
      simp [searchStep_all_urls, hu]
    · simp only [List.foldl_cons, ih]
      simp [searchStep_all_urls, hu]

/-- Membership in the accumulated `social_urls`: exactly the initial
    entries plus one `(type, url)` pair per non-empty result URL whose
    hostname classifies as social of that type. -/
theorem foldl_social_mem (ed : String → String) (rs : List String) :
    ∀ (acc : SearchOutput) (t u' : String),
      (t, u') ∈ (rs.foldl (searchStep ed) acc).social_urls ↔
      (t, u') ∈ acc.social_urls ∨
        (u' ∈ rs ∧ u' ≠ "" ∧ classifyUrl (ed u') = .social t) := by
  induction rs with
  | nil => intro acc t u'; simp
  | cons u rest ih =>
    intro acc t u'
    rw [List.foldl_cons, ih]
    rw [show ((searchStep ed acc u).social_urls) = _ from searchStep_social ed acc u]
    by_cases hu : u = ""
    · simp only [hu, if_pos rfl]
      simp [List.mem_cons]
      constructor
      · rintro (h | h)
        · exact Or.inl h
        · exact Or.inr ⟨Or.inr h.1, h.2⟩
      · rintro (h | ⟨(rfl | h1), h2, h3⟩)
        · exact Or.inl h
        · exact absurd rfl h2
        · exact Or.inr ⟨h1, h2, h3⟩
    · simp only [hu, if_neg, ite_false]
      rcases h : classifyUrl (ed u) with ty | _ | _ <;>
        simp [List.mem_cons] <;> constructor
      · rintro ((hmem | ⟨rfl, rfl⟩) | hr)
        · exact Or.inl hmem
        · exact Or.inr ⟨Or.inl rfl, hu, h⟩
        · exact Or.inr ⟨Or.inr hr.1, hr.2⟩
      · rintro (hmem | ⟨(rfl | h1), h2, h3⟩)
        · exact Or.inl (Or.inl hmem)
        · rw [h] at h3; cases h3; exact Or.inl (Or.inr ⟨rfl, rfl⟩)
        · exact Or.inr ⟨h1, h2, h3⟩
      · rintro (hmem | hr)
        · exact Or.inl hmem
        · exact Or.inr ⟨Or.inr hr.1, hr.2⟩
      · rintro (hmem | ⟨(rfl | h1), h2, h3⟩)
        · exact Or.inl hmem
        · rw [h] at h3; cases h3
        · exact Or.inr ⟨h1, h2, h3⟩
      · rintro (hmem | hr)
        · exact Or.inl hmem
        · exact Or.inr ⟨Or.inr hr.1, hr.2⟩
      · rintro (hmem | ⟨(rfl | h1), h2, h3⟩)
        · exact Or.inl hmem
        · rw [h] at h3; cases h3
        · exact Or.inr ⟨h1, h2, h3⟩

/-- Once a website is retained, the rest of the loop keeps it. -/
theorem foldl_website_some (ed : String → String) (rs : List String) :
    ∀ (acc : SearchOutput) (w : String), acc.website = some w →
      (rs.foldl (searchStep ed) acc).website = some w := by
  induction rs with
  | nil => intro acc w h; simpa using h
  | cons u rest ih =>
    intro acc w h
    rw [List.foldl_cons]
    apply ih
    rw [searchStep_website]
    simp [h]

/-- Starting from no website, the loop retains exactly the first
    retainable website candidate in result order. -/
theorem foldl_website_none (ed : String → String) (rs : List String) :
    ∀ acc : SearchOutput, acc.website = none →
      (rs.foldl (searchStep ed) acc).website = rs.find? (isWebsitePick ed) := by
  induction rs with
  | nil => intro acc h; simpa using h
  | cons u rest ih =>
    intro acc h
    rw [List.foldl_cons]
    by_cases hp : isWebsitePick ed u = true
    · have hu : u ≠ "" := by
        intro he; rw [isWebsitePick, he] at hp; simp at hp
      have hc : classifyUrl (ed u) = .websiteCandidate := by
        rw [isWebsitePick] at hp
        rcases Bool.and_eq_true_iff.mp hp with ⟨_, h2⟩
        exact eq_of_beq h2
      rw [List.find?_cons_of_pos _ hp]
      apply foldl_website_some
      rw [searchStep_website]
      simp [hu, h, hc]
    · rw [List.find?_cons_of_neg _ hp]
      apply ih
      rw [searchStep_website, h]
      by_cases hu : u = ""
      · simp [hu]
      · rcases hc : classifyUrl (ed u) with ty | _ | _ <;> simp [hu, hc]
        exfalso; apply hp
        rw [isWebsitePick, hc]
        simp [hu]

/-- The website resolved by `search_business` is the first retainable
    website candidate of the result list. -/
theorem search_business_website (ed : String → String) (results : List String) :
    (search_business ed results).website = results.find? (isWebsitePick ed) :=
  foldl_website_none ed results _ rfl

/-- Looking up any entry of `SOCIAL_DOMAINS` by its own domain string
    yields exactly that entry's social type. -/
theorem social_domain_lookup : ∀ d ty : String, (d, ty) ∈ SOCIAL_DOMAINS →
    findSocialType d = some ty := by
  intro d ty h
  fin_cases h <;> decide

/-- Every deny-listed hostname classifies as `skip`: no deny-listed domain
    also matches a social-domain substring. -/
theorem skip_domain_class : ∀ d : String, d ∈ SKIP_DOMAINS →
    classifyUrl d = .skip := by
  intro d h
  fin_cases h <;> decide

/-- Elements of the determinized set come from the underlying list. -/
theorem mem_setOfList_aux (l : List String) :
    ∀ (acc : List String) (x : String),
      x ∈ l.foldl (fun acc x => if acc.contains x then acc else acc ++ [x]) acc →
      x ∈ acc ∨ x ∈ l := by
  induction l with
  | nil => intro acc x h; exact Or.inl (by simpa using h)
  | cons u rest ih =>
    intro acc x h
    rw [List.foldl_cons] at h
    rcases ih _ x h with h2 | h2
    · by_cases hc : acc.contains u
      · rw [if_pos hc] at h2; exact Or.inl h2
      · rw [if_neg hc] at h2
        rcases List.mem_append.mp h2 with h3 | h3
        · exact Or.inl h3
        · simp at h3; subst h3; exact Or.inr (List.mem_cons_self _ _)
    · exact Or.inr (List.mem_cons_of_mem _ h2)

/-- Membership in `setOfList` implies membership in the source list. -/
theorem mem_setOfList {l : List String} {x : String} (h : x ∈ setOfList l) :
    x ∈ l := by
  rcases mem_setOfList_aux l [] x h with h2 | h2
  · simp at h2
  · exact h2

/-- Sanitizing to digits-and-plus is idempotent. -/
theorem sanitize_idem (s : String) :
    sanitizePhone (sanitizePhone s) = sanitizePhone s := by
  show String.mk _ = String.mk _
  congr 1
  show ((String.mk _).data.filter _) = _
  rw [List.filter_filter]
  apply List.filter_congr
  intro c _
  cases hc : (c.isDigit || c == '+') <;> simp [hc]

/-- Unfolding of `scrape_url` on a fetched response. -/
theorem scrape_url_fetched (status : Nat) (ct : String) (page : ParsedPage) :
    scrape_url (.fetched status ct page) =
      if status ≠ 200 then emptyScrape
      else if !(strContains ct "text/html" ||
                strContains ct "application/xhtml") then emptyScrape
      else
        { emails := ((emailCandidates page).take 5).filter
            (fun e => !_is_junk_email e)
          phones := (setOfList (telCandidates page ++ textPhoneCandidates page)).take 5
          whatsapps := (setOfList (page.hrefWaMatches ++ page.rawWaMatches)).take 3 } := rfl

/-- On a 200 HTML-family response, `scrape_url` harvests all three
    contact lists. -/
theorem scrape_url_success (ct : String) (page : ParsedPage)
    (hct : strContains ct "text/html" = true ∨
           strContains ct "application/xhtml" = true) :
    scrape_url (.fetched 200 ct page) =
      { emails := ((emailCandidates page).take 5).filter
          (fun e => !_is_junk_email e)
        phones := (setOfList (telCandidates page ++ textPhoneCandidates page)).take 5
        whatsapps := (setOfList (page.hrefWaMatches ++ page.rawWaMatches)).take 3 } := by
  rw [scrape_url_fetched]
  rcases hct with h | h <;> simp [h]

/-- With every per-business progress update succeeding, the batch loop
    runs to completion and counts every business — also those whose
    enrichment raised. -/
theorem runBatch_ok {β : Type} (enrich : β → Except Unit Unit)
    (dbProgress : Nat → Except Unit Unit) (hp : ∀ n, dbProgress n = .ok ()) :
    ∀ (bs : List β) (processed : Nat),
      runBatch enrich dbProgress bs processed = .ok (processed + bs.length) := by
  intro bs
  induction bs with
  | nil => intro processed; simp [runBatch]
  | cons b rest ih =>
    intro processed
    unfold runBatch
    rcases henr : enrich b with e | v <;> simp only [henr] <;>
      rw [hp (processed + 1), ih (processed + 1)] <;>
      simp [List.length_cons] <;> omega

/-! ## Claim theorems -/

/-- C1 (counterexample): the claim "emails are the harvested candidates
    filtered against the junk deny-list and then capped to the first 5
    survivors; at least 5 non-junk candidates harvested gives exactly 5
    returned" is false: on `pageC1`, five non-junk candidates are
    harvested (junk-filtering the candidates leaves 5), yet `scrape_url`
    returns only 4 emails, and the returned list differs from the
    filter-then-cap list — the code caps to the first 5 candidates before
    filtering. -/
theorem c1_filter_after_cap_counterexample :
    5 ≤ ((emailCandidates pageC1).filter (fun e => !_is_junk_email e)).length ∧
    (scrape_url (.fetched 200 "text/html" pageC1)).emails.length = 4 ∧
    (scrape_url (.fetched 200 "text/html" pageC1)).emails ≠
      ((emailCandidates pageC1).filter (fun e => !_is_junk_email e)).take 5 := by
  decide

/-- C1 (amended): on a scraped page, the emails list is the harvested
    candidate list capped to its first 5 elements and then filtered
    against the junk-domain deny-list; it therefore has at most 5
    elements, all junk-free, but may have fewer than 5 even when at
    least 5 non-junk candidates were harvested. -/
theorem c1_emails_cap_then_filter (ct : String) (page : ParsedPage)
    (hct : strContains ct "text/html" = true) :
    (scrape_url (.fetched 200 ct page)).emails
        = ((emailCandidates page).take 5).filter (fun e => !_is_junk_email e) ∧
    (scrape_url (.fetched 200 ct page)).emails.length ≤ 5 ∧
    (∀ e ∈ (scrape_url (.fetched 200 ct page)).emails,
      _is_junk_email e = false) := by
  rw [scrape_url_success ct page (Or.inl hct)]
  refine ⟨rfl, ?_, ?_⟩
  · calc (((emailCandidates page).take 5).filter (fun e => !_is_junk_email e)).length
        ≤ ((emailCandidates page).take 5).length := List.length_filter_le _ _
      _ ≤ 5 := by rw [List.length_take]; exact min_le_left _ _
  · intro e he
    have := List.of_mem_filter he
    simpa using this

/-- Witness for C1 (amended) at a concrete page. -/
theorem c1_emails_cap_then_filter_witness :
    strContains "text/html" "text/html" = true ∧
    ((scrape_url (.fetched 200 "text/html" c1WitnessPage)).emails
        = ((emailCandidates c1WitnessPage).take 5).filter
            (fun e => !_is_junk_email e) ∧
     (scrape_url (.fetched 200 "text/html" c1WitnessPage)).emails.length ≤ 5 ∧
     (∀ e ∈ (scrape_url (.fetched 200 "text/html" c1WitnessPage)).emails,
       _is_junk_email e = false)) :=
  ⟨by decide, c1_emails_cap_then_filter "text/html" c1WitnessPage (by decide)⟩

/-- C2: `compute_confidence` equals the base 0.5 plus 0.3 for validity,
    plus 0.1 for an explicit `mailto:`/`tel:` source, plus 0.1 for a
    WhatsApp `wa.me` source, clamped at 1.0; it always lies in [0, 1];
    and a valid contact from a `mailto:`/`tel:` source that is not a
    `wa.me` link scores exactly 0.9. -/
theorem c2_confidence_score_formula (ct : String) (v : Bool) (s : String) :
    compute_confidence ct v s =
      min ((1/2 : ℚ) + (if v then 3/10 else 0)
        + (if hasLinkBonus s then 1/10 else 0)
        + (if hasWaBonus s then 1/10 else 0)) 1
    ∧ 0 ≤ compute_confidence ct v s ∧ compute_confidence ct v s ≤ 1
    ∧ (v = true → hasLinkBonus s = true → hasWaBonus s = false →
        compute_confidence ct v s = 9/10) := by
  cases v <;> rcases h1 : hasLinkBonus s <;> rcases h2 : hasWaBonus s <;>
    simp [compute_confidence, h1, h2] <;> norm_num [min_def]

/-- Witness for C2: a valid email from a `mailto:` source scores 0.9. -/
theorem c2_confidence_score_formula_witness :
    compute_confidence "email" true "mailto:info@acme.com" = 9/10 :=
  (c2_confidence_score_formula "email" true "mailto:info@acme.com").2.2.2
    rfl (by decide) (by decide)

/-- C3: a non-empty result URL whose extracted hostname is one of the
    declared social-platform domains is classified as exactly that
    platform's social type (the declared-order scan yields that type and
    no other) and is never retained as the website. -/
theorem c3_social_domain_classification (ed : String → String)
    (results : List String) (url d ty : String)
    (hmem : (d, ty) ∈ SOCIAL_DOMAINS) (hd : ed url = d)
    (hne : url ≠ "") (hin : url ∈ results) :
    (ty, url) ∈ (search_business ed results).social_urls ∧
    (∀ ty', (ty', url) ∈ (search_business ed results).social_urls → ty' = ty) ∧
    (search_business ed results).website ≠ some url := by
  have hcls : classifyUrl (ed url) = .social ty := by
    rw [hd]; simp [classifyUrl, social_domain_lookup d ty hmem]
  refine ⟨?_, ?_, ?_⟩
  · rw [search_business, foldl_social_mem]
    exact Or.inr ⟨hin, hne, hcls⟩
  · intro ty' h
    rw [search_business, foldl_social_mem] at h
    rcases h with h | ⟨_, _, hc⟩
    · simp at h
    · rw [hcls] at hc; cases hc; rfl
  · rw [search_business_website]
    intro hfind
    have h2 := List.find?_some hfind
    rw [isWebsitePick] at h2
    rcases Bool.and_eq_true_iff.mp h2 with ⟨_, hb⟩
    have h3 := eq_of_beq hb
    rw [hcls] at h3; cases h3

/-- Witness for C3: an Instagram-hosted URL classifies as instagram and is
    not the website. -/
theorem c3_social_domain_classification_witness :
    ("instagram.com", "instagram") ∈ SOCIAL_DOMAINS ∧
    (("instagram", "https://instagram.com/biz") ∈
      (search_business (fun _ => "instagram.com")
        ["https://instagram.com/biz"]).social_urls ∧
     (∀ ty', (ty', "https://instagram.com/biz") ∈
        (search_business (fun _ => "instagram.com")
          ["https://instagram.com/biz"]).social_urls → ty' = "instagram") ∧
     (search_business (fun _ => "instagram.com")
        ["https://instagram.com/biz"]).website ≠ some "https://instagram.com/biz") :=
  ⟨by decide, c3_social_domain_classification (fun _ => "instagram.com")
    ["https://instagram.com/biz"] "https://instagram.com/biz"
    "instagram.com" "instagram" (by decide) rfl (by decide) (by decide)⟩

/-- C4: for every result list, the resolved website is the first URL in
    result order that is non-empty and classified neither social nor
    deny-listed (later candidates are dropped); in particular, for the
    order [deny-listed, social, website-A, website-B] the resolved
    website is website-A, never website-B. -/
theorem c4_first_website_candidate_retained :
    (∀ (ed : String → String) (results : List String),
      (search_business ed results).website
        = results.find? (isWebsitePick ed)) ∧
    (search_business edScenario scenarioUrls).website = some "https://site-a.com" :=
  ⟨search_business_website, by decide⟩

/-- C5: a result URL whose extracted hostname is deny-listed is retained
    neither as the website nor among the social URLs, while `all_urls`
    collects every non-empty result URL in result order. -/
theorem c5_skip_domain_discarded (ed : String → String)
    (results : List String) (url : String)
    (_hin : url ∈ results) (hskip : ed url ∈ SKIP_DOMAINS) :
    (search_business ed results).website ≠ some url ∧
    (∀ ty, (ty, url) ∉ (search_business ed results).social_urls) ∧
    (search_business ed results).all_urls
      = results.filter (fun u => u != "") := by
  have hcls : classifyUrl (ed url) = .skip := skip_domain_class _ hskip
  refine ⟨?_, ?_, ?_⟩
  · rw [search_business_website]
    intro hfind
    have h2 := List.find?_some hfind
    rw [isWebsitePick] at h2
    rcases Bool.and_eq_true_iff.mp h2 with ⟨_, hb⟩
    have h3 := eq_of_beq hb
    rw [hcls] at h3; cases h3
  · intro ty h
    rw [search_business, foldl_social_mem] at h
    rcases h with h | ⟨_, _, hc⟩
    · simp at h
    · rw [hcls] at hc; cases hc
  · rw [search_business, foldl_all_urls]; rfl

/-- Witness for C5: a Yelp URL is dropped from website and socials but
    kept in `all_urls`. -/
theorem c5_skip_domain_discarded_witness :
    "yelp.com" ∈ SKIP_DOMAINS ∧
    ((search_business (fun _ => "yelp.com") ["https://yelp.com/biz"]).website
        ≠ some "https://yelp.com/biz" ∧
     (∀ ty, (ty, "https://yelp.com/biz") ∉
        (search_business (fun _ => "yelp.com") ["https://yelp.com/biz"]).social_urls) ∧
     (search_business (fun _ => "yelp.com") ["https://yelp.com/biz"]).all_urls
        = ["https://yelp.com/biz"].filter (fun u => u != "")) :=
  ⟨by decide, c5_skip_domain_discarded (fun _ => "yelp.com")
    ["https://yelp.com/biz"] "https://yelp.com/biz" (by decide) (by decide)⟩

/-- C6 (counterexample): the claim "every returned phone contains at least
    8 digit characters after sanitization" is false: the `tel:` link
    `tel:+1234567` passes the length-8 check of `scrape_url` (the plus
    sign counts towards the length) and is returned although it contains
    only 7 digit characters. -/
theorem c6_seven_digit_phone_counterexample :
    "+1234567" ∈ (scrape_url (.fetched 200 "text/html" pageC6)).phones ∧
    (("+1234567").toList.filter Char.isDigit).length = 7 := by
  decide

/-- C6 (amended): every phone string returned by `scrape_url` is already
    sanitized to digits and plus signs and has at least 8 characters
    counting both digits and plus signs (not necessarily 8 digits), and
    the phones list has at most 5 elements. -/
theorem c6_phone_sanitized_length (fr : FetchResult) (p : String)
    (hp : p ∈ (scrape_url fr).phones) :
    sanitizePhone p = p ∧ 8 ≤ p.length ∧ (scrape_url fr).phones.length ≤ 5 := by
  match fr with
  | .fetchError => simp [scrape_url, emptyScrape] at hp
  | .fetched status ct page =>
    rw [scrape_url_fetched] at hp ⊢
    by_cases h200 : status ≠ 200
    · rw [if_pos h200] at hp; simp [emptyScrape] at hp
    · rw [if_neg h200] at hp ⊢
      by_cases hct : (strContains ct "text/html" ||
          strContains ct "application/xhtml") = true
      · simp only [hct, Bool.not_true, Bool.false_eq_true, if_false] at hp ⊢
        refine ⟨?_, ?_, ?_⟩
        · rcases List.mem_append.mp (mem_setOfList (List.take_subset _ _ hp)) with h | h
          · rcases List.mem_filter.mp (mem_setOfList h) with ⟨hmem, _⟩
            rcases List.mem_map.mp hmem with ⟨href, _, rfl⟩
            exact sanitize_idem _
          · rcases List.mem_filter.mp (mem_setOfList h) with ⟨hmem, _⟩
            rcases List.mem_map.mp hmem with ⟨q, _, rfl⟩
            exact sanitize_idem _
        · rcases List.mem_append.mp (mem_setOfList (List.take_subset _ _ hp)) with h | h
          · rcases List.mem_filter.mp (mem_setOfList h) with ⟨_, hpred⟩
            rcases Bool.and_eq_true_iff.mp hpred with ⟨_, hlen⟩
            exact of_decide_eq_true hlen
          · rcases List.mem_filter.mp (mem_setOfList h) with ⟨_, hpred⟩
            exact of_decide_eq_true hpred
        · rw [List.length_take]; exact min_le_left _ _
      · simp only [hct] at hp
        simp [emptyScrape] at hp

/-- Witness for C6 (amended) at a well-formed `tel:` link. -/
theorem c6_phone_sanitized_length_witness :
    "+541145678900" ∈ (scrape_url (.fetched 200 "text/html" c6WitnessPage)).phones ∧
    (sanitizePhone "+541145678900" = "+541145678900" ∧
     8 ≤ ("+541145678900").length ∧
     (scrape_url (.fetched 200 "text/html" c6WitnessPage)).phones.length ≤ 5) :=
  ⟨by decide, c6_phone_sanitized_length
    (.fetched 200 "text/html" c6WitnessPage) "+541145678900" (by decide)⟩

/-- C7: the normalizers are total — translated with the try/except
    structure made explicit, `normalize_phone` returns the trimmed raw
    string with validity false when the phone library raises, and the
    library's E.164 string with its validity flag otherwise;
    `normalize_email` returns the lowercased trimmed raw string with
    validity false when validation raises, and the normalized address
    with validity true otherwise. -/
theorem c7_normalization_never_raises
    (parseLib : String → Except Unit (Bool × String))
    (validateLib : String → Except Unit String) (raw : String) :
    (parseLib (cleanPhoneInput raw) = .error () →
      normalize_phone parseLib raw = (pyStrip raw, false)) ∧
    (∀ v e164, parseLib (cleanPhoneInput raw) = .ok (v, e164) →
      normalize_phone parseLib raw = (e164, v)) ∧
    (validateLib (pyStrip raw) = .error () →
      normalize_email validateLib raw = (pyLower (pyStrip raw), false)) ∧
    (∀ n, validateLib (pyStrip raw) = .ok n →
      normalize_email validateLib raw = (n, true)) := by
  refine ⟨?_, ?_, ?_, ?_⟩
  · intro h; unfold normalize_phone; rw [h]
  · intro v e164 h; unfold normalize_phone; rw [h]
  · intro h; unfold normalize_email; rw [h]
  · intro n h; unfold normalize_email; rw [h]

/-- Witness for C7: with both libraries raising, the raw strings come
    back trimmed (and lowercased for the email) with validity false. -/
theorem c7_normalization_never_raises_witness :
    normalize_phone (fun _ => .error ()) " A-B.C " = ("A-B.C", false) ∧
    normalize_email (fun _ => .error ()) " A-B.C " = ("a-b.c", false) :=
  ⟨(c7_normalization_never_raises (fun _ => .error ())
      (fun _ => .error ()) " A-B.C ").1 rfl,
   (c7_normalization_never_raises (fun _ => .error ())
      (fun _ => .error ()) " A-B.C ").2.2.1 rfl⟩

/-- C8: `scrape_url` yields the all-empty result on a fetch exception, on
    any non-200 status, and on any content type that is neither
    `text/html` nor `application/xhtml`. -/
theorem c8_scrape_empty_on_failure (status : Nat) (ct : String)
    (page : ParsedPage) :
    scrape_url .fetchError = emptyScrape ∧
    (status ≠ 200 → scrape_url (.fetched status ct page) = emptyScrape) ∧
    (strContains ct "text/html" = false →
      strContains ct "application/xhtml" = false →
      scrape_url (.fetched status ct page) = emptyScrape) := by
  refine ⟨rfl, ?_, ?_⟩
  · intro h; rw [scrape_url_fetched, if_pos h]
  · intro h1 h2; rw [scrape_url_fetched]
    by_cases h200 : status ≠ 200
    · rw [if_pos h200]
    · rw [if_neg h200]; simp [h1, h2]

/-- Witness for C8: a 404 response and a JSON response both scrape to the
    all-empty result. -/
theorem c8_scrape_empty_on_failure_witness :
    scrape_url (.fetched 404 "text/html" emptyParsedPage) = emptyScrape ∧
    scrape_url (.fetched 200 "application/json" emptyParsedPage) = emptyScrape :=
  ⟨(c8_scrape_empty_on_failure 404 "text/html" emptyParsedPage).2.1 (by decide),
   (c8_scrape_empty_on_failure 200 "application/json" emptyParsedPage).2.2
     (by decide) (by decide)⟩

/-- C9: with every jobs-table update succeeding (no exception escaping the
    per-business boundary), the coordinator finishes with status `done`
    and `processed` equal to the business count, for every enrichment
    outcome function — per-business exceptions are caught inside the loop
    and the failed business still counts as processed. -/
theorem c9_per_business_isolation {β : Type} (enrich : β → Except Unit Unit)
    (dbProgress dbDone : Nat → Except Unit Unit)
    (hp : ∀ n, dbProgress n = .ok ()) (hd : ∀ n, dbDone n = .ok ())
    (businesses : List β) :
    process_enrichment enrich dbProgress dbDone businesses
      = (.done, businesses.length) := by
  unfold process_enrichment
  rw [runBatch_ok enrich dbProgress hp businesses 0]
  simp [hd]

/-- Witness for C9: a batch of 3 businesses where business #2 raises still
    finishes done with processed = 3. -/
theorem c9_per_business_isolation_witness :
    process_enrichment (fun b : Nat => if b = 2 then .error () else .ok ())
      (fun _ => .ok ()) (fun _ => .ok ()) [1, 2, 3] = (.done, 3) :=
  c9_per_business_isolation _ _ _ (fun _ => rfl) (fun _ => rfl) [1, 2, 3]

/-- C10: `compute_confidence` never returns less than the 0.5 base, for
    every contact type, validity flag and source string. -/
theorem c10_confidence_lower_bound (ct : String) (v : Bool) (s : String) :
    1/2 ≤ compute_confidence ct v s := by
  cases v <;> rcases h1 : hasLinkBonus s <;> rcases h2 : hasWaBonus s <;>
    simp [compute_confidence, h1, h2] <;> norm_num [min_def]

end Purosoft
